import Mathlib

/-!
Verification of the krs-viewer MCP server core against its specification.

The definitions below are a shallow embedding of the TypeScript source:
  - `LRUCache` and its operations embed the class `LRUCache` of
    `src/api-key-handler.ts` (a JavaScript `Map` from keys to
    `{value, lastAccessed}` entries; `Map` iteration order is insertion
    order, `Map.set` on an existing key keeps the entry position).
    `Date.now()` is passed explicitly as a `now : Nat` argument.
  - `replaceFirstS` embeds the JavaScript `String.prototype.replace` with a
    string pattern, which replaces only the first occurrence.
-/

namespace KrsViewer

/-- Cache entry of the LRU map: `\x7b value, lastAccessed \x7d` in the source. -/
structure LRUEntry (V : Type) where
  value : V
  lastAccessed : Nat
deriving DecidableEq

/-- The `LRUCache` class state: a `Map` (iteration order = insertion order,
represented as a list) plus the fixed `maxSize`. -/
structure LRUCache (K V : Type) where
  entries : List (K × LRUEntry V)
  maxSize : Nat
deriving DecidableEq

/-- The structured record passed to `logger.info` by `evictLRU`. -/
structure EvictionLog (K : Type) where
  event : String
  evictedKey : K
  cacheSize : Nat
deriving DecidableEq

/-- `Map.get`-style association lookup in iteration order. -/
def lookupEntry {K V : Type} [DecidableEq K] (k : K) :
    List (K × LRUEntry V) → Option (LRUEntry V)
  | [] => none
  | (k', e) :: rest => if k' = k then some e else lookupEntry k rest

/-- In-place refresh of `entry.lastAccessed = Date.now()` done by `get` on a hit
(the entry keeps its position in the `Map`). -/
def updateAccess {K V : Type} [DecidableEq K] (k : K) (now : Nat) :
    List (K × LRUEntry V) → List (K × LRUEntry V)
  | [] => []
  | (k', e) :: rest =>
      if k' = k then (k', ⟨e.value, now⟩) :: rest
      else (k', e) :: updateAccess k now rest

/-- `LRUCache.get`: on a hit refreshes the timestamp and returns the value, on a
miss returns `undefined` without side effects. -/
def lruGet {K V : Type} [DecidableEq K] (c : LRUCache K V) (k : K) (now : Nat) :
    Option V × LRUCache K V :=
  match lookupEntry k c.entries with
  | some e => (some e.value, ⟨updateAccess k now c.entries, c.maxSize⟩)
  | none => (none, c)

/-- `LRUCache.has`. -/
def lruHas {K V : Type} [DecidableEq K] (c : LRUCache K V) (k : K) : Bool :=
  (lookupEntry k c.entries).isSome

/-- The `for (const [key, entry] of this.cache.entries())` scan of `evictLRU`:
`oldestTime` starts at `Infinity` (modelled by the `none` accumulator) and is
replaced only on a strictly smaller `lastAccessed`, so the first-encountered
minimum wins ties. -/
def scanOldest {K V : Type} (acc : Option (K × Nat)) :
    List (K × LRUEntry V) → Option (K × Nat)
  | [] => acc
  | (k, e) :: rest =>
      match acc with
      | none => scanOldest (some (k, e.lastAccessed)) rest
      | some (k0, t0) =>
          if e.lastAccessed < t0 then scanOldest (some (k, e.lastAccessed)) rest
          else scanOldest (some (k0, t0)) rest

/-- `Map.delete(key)`: removes the (unique) binding of `key`. -/
def deleteKey {K V : Type} [DecidableEq K] (k : K) :
    List (K × LRUEntry V) → List (K × LRUEntry V)
  | [] => []
  | (k', e) :: rest => if k' = k then rest else (k', e) :: deleteKey k rest

/-- `LRUCache.evictLRU`: scans for the entry with the smallest `lastAccessed`,
logs `\x7b event: "lru_cache_eviction", evicted_user_id, cache_size \x7d`
(note: `cache_size` is read BEFORE `this.cache.delete`), then deletes it.
Returns the new state together with the emitted log record, if any. -/
def evictLRU {K V : Type} [DecidableEq K] (c : LRUCache K V) :
    LRUCache K V × Option (EvictionLog K) :=
  match scanOldest none c.entries with
  | none => (c, none)
  | some (k, _) =>
      (⟨deleteKey k c.entries, c.maxSize⟩,
       some ⟨"lru_cache_eviction", k, c.entries.length⟩)

/-- `Map.set`: overwrite in place when the key exists (keeping its position),
otherwise append at the end of the iteration order. -/
def setEntry {K V : Type} [DecidableEq K] (k : K) (v : V) (now : Nat) :
    List (K × LRUEntry V) → List (K × LRUEntry V)
  | [] => [(k, ⟨v, now⟩)]
  | (k', e) :: rest =>
      if k' = k then (k, ⟨v, now⟩) :: rest
      else (k', e) :: setEntry k v now rest

/-- `LRUCache.set`: evicts first when `size >= maxSize` and the key is new,
then inserts with `lastAccessed = Date.now()`. -/
def lruSet {K V : Type} [DecidableEq K] (c : LRUCache K V) (k : K) (v : V)
    (now : Nat) : LRUCache K V × Option (EvictionLog K) :=
  if c.maxSize ≤ c.entries.length ∧ (lookupEntry k c.entries).isNone then
    (⟨setEntry k v now (evictLRU c).1.entries, (evictLRU c).1.maxSize⟩, (evictLRU c).2)
  else
    (⟨setEntry k v now c.entries, c.maxSize⟩, none)

/-- A client-visible cache operation with its `Date.now()` timestamp. -/
inductive CacheOp (K V : Type) where
  | get (k : K) (now : Nat)
  | set (k : K) (v : V) (now : Nat)

/-- State reached after one operation. -/
def applyOp {K V : Type} [DecidableEq K] (c : LRUCache K V) :
    CacheOp K V → LRUCache K V
  | .get k now => (lruGet c k now).2
  | .set k v now => (lruSet c k v now).1

/-- State reached after a sequence of operations. -/
def runOps {K V : Type} [DecidableEq K] (c : LRUCache K V)
    (ops : List (CacheOp K V)) : LRUCache K V :=
  ops.foldl applyOp c

/-- A fresh cache of the given capacity (`new LRUCache(maxSize)`). -/
def emptyCache (K V : Type) (maxSize : Nat) : LRUCache K V := ⟨[], maxSize⟩

/-!
JavaScript `String.prototype.replace` with a string pattern: replaces only the
FIRST occurrence of the pattern.  Used by the source in three places:
`authHeader.replace("Bearer ", "")` (lane selection and token extraction) and
the capital value normalisation `wartosc.replace(",", ".")`.
-/

/-- Splits a character list at the first occurrence of `pat`: returns the part
before the occurrence and the part after it, or `none` when `pat` does not
occur. -/
def splitFirst (pat : List Char) : List Char → Option (List Char × List Char)
  | [] => if pat = [] then some ([], []) else none
  | c :: cs =>
      if pat.isPrefixOf (c :: cs) then some ([], (c :: cs).drop pat.length)
      else
        match splitFirst pat cs with
        | some (pre, post) => some (c :: pre, post)
        | none => none

/-- JavaScript first-occurrence replace on character lists. -/
def replaceFirstL (pat repl s : List Char) : List Char :=
  match splitFirst pat s with
  | some (pre, post) => pre ++ repl ++ post
  | none => s

/-- JavaScript `s.replace(pat, repl)` with a string pattern. -/
def replaceFirstS (pat repl s : String) : String :=
  ⟨replaceFirstL pat.data repl.data s.data⟩

/-- Whether `pat` occurs as a contiguous substring of `s`. -/
def containsSub (pat s : String) : Bool :=
  (splitFirst pat.data s.data).isSome

/-- JavaScript `s.startsWith(pre)`. -/
def strStartsWith (s pre : String) : Bool :=
  pre.data.isPrefixOf s.data

/-!
The Response Cache.  `KrsClient.getCompany` stores transformed records in
`env.CACHE_KV` with `expirationTtl: 3600`; the TTL semantics themselves live
in the Cloudflare KV collaborator, not in the repository source.
-/

/-- A stored cache entry together with its store time and TTL. -/
structure TTLEntry (V : Type) where
  value : V
  storedAt : Nat
  expirationTtl : Nat
deriving DecidableEq

/-- Modelled from the spec: the Response Cache backing store (Cloudflare KV as
used by `KrsClient.getCompany`, which is not part of the repository source).
Spec §4.2: entries live for a fixed TTL chosen at store time; `store` on an
existing key replaces the prior entry and resets its TTL window. -/
def ttlPut {V : Type} (k : String) (v : V) (ttl now : Nat) :
    List (String × TTLEntry V) → List (String × TTLEntry V)
  | [] => [(k, ⟨v, now, ttl⟩)]
  | (k', e) :: rest =>
      if k' = k then (k, ⟨v, now, ttl⟩) :: rest
      else (k', e) :: ttlPut k v ttl now rest

/-- Modelled from the spec: lookup at time `now`; an entry older than its TTL
is treated as absent, exactly like a key that was never stored. -/
def ttlLookup {V : Type} (k : String) (now : Nat) :
    List (String × TTLEntry V) → Option V
  | [] => none
  | (k', e) :: rest =>
      if k' = k then
        (if now < e.storedAt + e.expirationTtl then some e.value else none)
      else ttlLookup k now rest

/-!
The raw KRS registry schema (src/types.ts, `KrsApiResponse`) and the
transformed record (`CompanyData`).  A field is `Option` exactly where the
transform code tolerates absence (through `?.` optional chaining or a `||`
fallback); everything else is accessed unconditionally by the source.
-/

structure Identyfikatory where
  nip : Option String
  regon : Option String
deriving DecidableEq

structure DanePodmiotu where
  formaPrawna : String
  identyfikatory : Option Identyfikatory
  nazwa : String
deriving DecidableEq

structure Siedziba where
  kraj : String
  wojewodztwo : String
  miejscowosc : String
deriving DecidableEq

structure Adres where
  ulica : String
  nrDomu : String
  nrLokalu : Option String
  kodPocztowy : String
deriving DecidableEq

structure SiedzibaIAdres where
  siedziba : Option Siedziba
  adres : Option Adres
deriving DecidableEq

structure KwotaWaluta where
  wartosc : String
  waluta : String
deriving DecidableEq

structure Kapital where
  wysokoscKapitaluZakladowego : KwotaWaluta
deriving DecidableEq

structure Nazwisko where
  nazwisko : String
deriving DecidableEq

structure Imiona where
  imie : String
deriving DecidableEq

structure Wspolnik where
  nazwisko : Nazwisko
  imiona : Imiona
  posiadaneUdzialy : String
deriving DecidableEq

structure Dzial1 where
  danePodmiotu : DanePodmiotu
  siedzibaIAdres : Option SiedzibaIAdres
  kapital : Option Kapital
  wspolnicySpzoo : Option (List Wspolnik)
deriving DecidableEq

structure CzlonekSkladu where
  nazwisko : Nazwisko
  imiona : Imiona
  funkcjaWOrganie : String
deriving DecidableEq

structure Reprezentacja where
  nazwaOrganu : String
  sposobReprezentacji : String
  sklad : List CzlonekSkladu
deriving DecidableEq

structure Dzial2 where
  reprezentacja : Option Reprezentacja
deriving DecidableEq

structure PkdItem where
  opis : String
  kodDzial : String
  kodKlasa : String
  kodPodklasa : String
deriving DecidableEq

structure PrzedmiotDzialalnosci where
  przedmiotPrzewazajacejDzialalnosci : List PkdItem
  przedmiotPozostalejDzialalnosci : Option (List PkdItem)
deriving DecidableEq

structure Dzial3 where
  przedmiotDzialalnosci : Option PrzedmiotDzialalnosci
deriving DecidableEq

structure Dane where
  dzial1 : Dzial1
  dzial2 : Option Dzial2
  dzial3 : Option Dzial3
deriving DecidableEq

structure NaglowekA where
  numerKRS : String
  dataRejestracjiWKRS : String
  stanZDnia : String
  dataCzasOdpisu : Option String
deriving DecidableEq

structure Odpis where
  naglowekA : NaglowekA
  dane : Dane
deriving DecidableEq

structure KrsApiResponse where
  odpis : Odpis
deriving DecidableEq

structure Address where
  city : String
  voivodeship : String
  street : String
  building : String
  unit : Option String
  postalCode : String
  country : String
deriving DecidableEq

structure Capital where
  value : String
  currency : String
deriving DecidableEq

structure Shareholder where
  name : String
  shares : String
deriving DecidableEq

structure BoardMember where
  name : String
  function : String
deriving DecidableEq

structure Representation where
  organName : String
  method : String
  members : List BoardMember
deriving DecidableEq

structure Activity where
  code : String
  description : String
deriving DecidableEq

structure CompanyData where
  name : String
  krs : String
  nip : Option String
  regon : Option String
  legalForm : String
  address : Address
  capital : Option Capital
  shareholders : List Shareholder
  representation : Representation
  mainActivity : List Activity
  otherActivities : List Activity
  registrationDate : String
  lastUpdate : String
  dataTimestamp : String
deriving DecidableEq

/-- JavaScript `x || d` on a string: the empty string is falsy. -/
def strOr (s d : String) : String := if s = "" then d else s

/-- JavaScript `x || d` where `x` is an optional string (absent or empty
falls back to the default). -/
def optStrOr (x : Option String) (d : String) : String :=
  match x with
  | some s => strOr s d
  | none => d

/-- JavaScript `x || null` where `x` is an optional string. -/
def optStrOrNull (x : Option String) : Option String :=
  match x with
  | some s => if s = "" then none else some s
  | none => none

/-- The `buildPkdCode` helper of `transformResponse`. -/
def buildPkdCode (item : PkdItem) : String :=
  item.kodDzial ++ "." ++ item.kodKlasa ++ "." ++ item.kodPodklasa

/-- `KrsClient.transformResponse`: maps the nested raw payload to the flat
widget-ready record.  `new Date().toISOString()` for the `dataTimestamp`
fallback is passed in as `nowIso`. -/
def transformResponse (raw : KrsApiResponse) (nowIso : String) : CompanyData :=
  let odpis := raw.odpis
  let dzial1 := odpis.dane.dzial1
  let dzial2 := odpis.dane.dzial2
  let dzial3 := odpis.dane.dzial3
  let shareholders :=
    ((dzial1.wspolnicySpzoo.getD []).filter
        (fun s => s.imiona.imie != "" && s.nazwisko.nazwisko != "")).map
      (fun s => (⟨s.imiona.imie ++ " " ++ s.nazwisko.nazwisko,
                  strOr s.posiadaneUdzialy "Brak danych"⟩ : Shareholder))
  let boardMembers :=
    ((((dzial2.bind Dzial2.reprezentacja).map Reprezentacja.sklad).getD
        []).filter
        (fun m => m.imiona.imie != "" && m.nazwisko.nazwisko != "")).map
      (fun m => (⟨m.imiona.imie ++ " " ++ m.nazwisko.nazwisko,
                  strOr m.funkcjaWOrganie "Brak danych"⟩ : BoardMember))
  let mainActivities :=
    (((dzial3.bind Dzial3.przedmiotDzialalnosci).map
        PrzedmiotDzialalnosci.przedmiotPrzewazajacejDzialalnosci).getD []).map
      (fun a => (⟨buildPkdCode a, a.opis⟩ : Activity))
  let otherActivities :=
    (((dzial3.bind Dzial3.przedmiotDzialalnosci).bind
        PrzedmiotDzialalnosci.przedmiotPozostalejDzialalnosci).getD []).map
      (fun a => (⟨buildPkdCode a, a.opis⟩ : Activity))
  ⟨dzial1.danePodmiotu.nazwa,
   odpis.naglowekA.numerKRS,
   optStrOrNull (dzial1.danePodmiotu.identyfikatory.bind Identyfikatory.nip),
   optStrOrNull (dzial1.danePodmiotu.identyfikatory.bind Identyfikatory.regon),
   dzial1.danePodmiotu.formaPrawna,
   ⟨optStrOr ((dzial1.siedzibaIAdres.bind SiedzibaIAdres.siedziba).map
       Siedziba.miejscowosc) "",
    optStrOr ((dzial1.siedzibaIAdres.bind SiedzibaIAdres.siedziba).map
       Siedziba.wojewodztwo) "",
    optStrOr ((dzial1.siedzibaIAdres.bind SiedzibaIAdres.adres).map
       Adres.ulica) "",
    optStrOr ((dzial1.siedzibaIAdres.bind SiedzibaIAdres.adres).map
       Adres.nrDomu) "",
    optStrOrNull ((dzial1.siedzibaIAdres.bind SiedzibaIAdres.adres).bind
       Adres.nrLokalu),
    optStrOr ((dzial1.siedzibaIAdres.bind SiedzibaIAdres.adres).map
       Adres.kodPocztowy) "",
    optStrOr ((dzial1.siedzibaIAdres.bind SiedzibaIAdres.siedziba).map
       Siedziba.kraj) "POLSKA"⟩,
   dzial1.kapital.map (fun kap =>
      (⟨replaceFirstS "," "." kap.wysokoscKapitaluZakladowego.wartosc,
        kap.wysokoscKapitaluZakladowego.waluta⟩ : Capital)),
   shareholders,
   ⟨optStrOr ((dzial2.bind Dzial2.reprezentacja).map
       Reprezentacja.nazwaOrganu) "ZARZĄD",
    optStrOr ((dzial2.bind Dzial2.reprezentacja).map
       Reprezentacja.sposobReprezentacji) "Brak danych",
    boardMembers⟩,
   mainActivities,
   otherActivities,
   odpis.naglowekA.dataRejestracjiWKRS,
   odpis.naglowekA.stanZDnia,
   optStrOr odpis.naglowekA.dataCzasOdpisu nowIso⟩

/-- The extract type union "aktualny" | "pelny". -/
inductive ExtractType where
  | aktualny
  | pelny
deriving DecidableEq

def ExtractType.str : ExtractType → String
  | .aktualny => "aktualny"
  | .pelny => "pelny"

/-- Outcome of the external `fetch` of the KRS registry API (an external
collaborator): timeout, network failure, or an HTTP response (on a 2xx the
parsed body is the raw payload). -/
inductive FetchResult where
  | timeoutErr
  | networkErr
  | httpOk (raw : KrsApiResponse)
  | httpErr (status : Nat)

/-- `KrsClient.getCompany`: checks the Response Cache; on a miss consults the
fetch outcome, maps failures to the thrown error messages of the source, and
on success transforms the payload and stores it with a 3600 second TTL.
The `JSON.stringify`/`JSON.parse` round trip through KV produces a deep-equal
copy, modelled as the identity. -/
def getCompany (krs : String) (ty : ExtractType)
    (cache : List (String × TTLEntry CompanyData)) (now : Nat)
    (nowIso : String) (fetch : FetchResult) :
    Except String (CompanyData × List (String × TTLEntry CompanyData)) :=
  let cacheKey := "krs:" ++ krs ++ ":" ++ ty.str
  match ttlLookup cacheKey now cache with
  | some cached => .ok (cached, cache)
  | none =>
    match fetch with
    | .timeoutErr => .error "KRS API timeout - please try again"
    | .networkErr => .error "KRS API unavailable - please try again later"
    | .httpErr status =>
        if status = 404 then
          .error ("Company with KRS " ++ krs ++ " not found in registry")
        else if status = 400 then
          .error ("Invalid KRS number format: " ++ krs)
        else .error ("KRS API error: " ++ toString status)
    | .httpOk raw =>
        let data := transformResponse raw nowIso
        .ok (data, ttlPut cacheKey data 3600 now cache)

/-- JavaScript truthiness of a nullable string. -/
def optTruthy (x : Option String) : Bool :=
  match x with
  | some s => s != ""
  | none => false

/-- `formatCompanyAsText` (src/krs-client.ts): renders the record as the text
fallback for hosts without UI support. -/
def formatCompanyAsText (data : CompanyData) : String :=
  let addr := data.address
  let addressParts := [addr.street, addr.building] ++
    (match addr.unit with
     | some u => if u != "" then ["lok. " ++ u] else []
     | none => [])
  let lines :=
    ["=== " ++ data.name ++ " ===", "", "KRS: " ++ data.krs] ++
    (if optTruthy data.nip then ["NIP: " ++ data.nip.getD ""] else []) ++
    (if optTruthy data.regon then ["REGON: " ++ data.regon.getD ""] else []) ++
    ["Forma prawna: " ++ data.legalForm, "",
     "📍 Adres:",
     "   " ++ String.intercalate " " addressParts,
     "   " ++ addr.postalCode ++ " " ++ addr.city,
     "   " ++ addr.voivodeship ++ ", " ++ addr.country,
     ""] ++
    (match data.capital with
     | some cap =>
         ["💰 Kapitał zakładowy: " ++ cap.value ++ " " ++ cap.currency, ""]
     | none => []) ++
    (if data.representation.members.length > 0 then
       ["👥 " ++ data.representation.organName ++ ":"] ++
       data.representation.members.map
         (fun m => "   • " ++ m.name ++ " - " ++ m.function) ++
       [""]
     else []) ++
    (if data.mainActivity.length > 0 then
       ["🏭 Działalność przeważająca:"] ++
       data.mainActivity.map
         (fun a => "   • " ++ a.code ++ " - " ++ a.description) ++
       [""]
     else []) ++
    ["📅 Data rejestracji: " ++ data.registrationDate,
     "📅 Stan na dzień: " ++ data.lastUpdate]
  String.intercalate "\n" lines

structure ToolContent where
  type : String
  text : String
deriving DecidableEq

/-- The value a tool handler returns to the MCP SDK: a content array, an
optional structured payload and an optional error flag (absent = false). -/
structure ToolResult where
  content : List ToolContent
  structuredContent : Option CompanyData
  isError : Bool
deriving DecidableEq

/-- The `view_company` tool handler registered in `KrsViewer.init`
(src/server.ts).  On a successful lookup it returns the text fallback plus the
structured record; on a thrown lookup error it returns an error-flagged
result, never a protocol-level failure.  A missing (or empty) authenticated
user id makes the handler throw before its try block, modelled as
`Except.error`. -/
def viewCompanyHandler (userId : Option String) (krs : String)
    (outcome : Except String CompanyData) : Except String ToolResult :=
  match userId with
  | none => .error "User ID not found in authentication context"
  | some uid =>
      if uid = "" then .error "User ID not found in authentication context"
      else
        match outcome with
        | .ok d =>
            .ok ⟨[⟨"text", formatCompanyAsText d ++
                "\n\nNext steps: Ask follow-up questions about this " ++
                "company\x27s board, capital, or activities. " ++
                "For full historical data, call view_company again with " ++
                "type \x27pelny\x27."⟩],
              some d, false⟩
        | .error e =>
            .ok ⟨[⟨"text", "Error looking up KRS " ++ krs ++ ": " ++ e⟩],
              none, true⟩

/-!
The JSON-RPC 2.0 dispatcher of the API-key lane (src/api-key-handler.ts).
JSON values are modelled by an explicit AST; `JSON.stringify(x, null, 2)` is
embedded as a pretty printer.
-/

inductive Json where
  | null
  | bool (b : Bool)
  | num (n : Int)
  | str (s : String)
  | arr (elems : List Json)
  | obj (fields : List (String × Json))

/-- The `id: number | string` of the envelope. -/
inductive RpcId where
  | num (n : Int)
  | str (s : String)
deriving DecidableEq

structure RpcError where
  code : Int
  message : String
deriving DecidableEq

/-- A JSON-RPC response body: `jsonrpc`, `id`, and exactly one of
`result`/`error`. -/
structure RpcResponse where
  jsonrpc : String
  id : RpcId
  result : Option Json
  error : Option RpcError

/-- The `jsonRpcResponse` helper: sets `error` when one is given, otherwise
`result`; `jsonrpc` is always the literal "2.0". -/
def jsonRpcResponse (id : RpcId) (result : Json)
    (error : Option RpcError) : RpcResponse :=
  match error with
  | some e => ⟨"2.0", id, none, some e⟩
  | none => ⟨"2.0", id, some result, none⟩

/-- The envelope shape `handleHTTPTransport` casts the parsed body to. -/
structure JsonRpcRequest where
  jsonrpc : String
  id : RpcId
  method : String
  params : Option Json

/-- Whether `await request.json()` produced a usable envelope or threw. -/
inductive BodyParse where
  | failed (msg : String)
  | parsed (req : JsonRpcRequest)

def lookupStr (k : String) : List (String × Json) → Option Json
  | [] => none
  | (k', v) :: rest => if k' = k then some v else lookupStr k rest

def jsonField (j : Json) (k : String) : Option Json :=
  match j with
  | .obj fs => lookupStr k fs
  | _ => none

def asString : Json → Option String
  | .str s => some s
  | _ => none

/-- `SERVER_NAME` (the template placeholder literal of the skeleton). -/
def SERVER_NAME : String := "\x7b\x7bSERVER_NAME\x7d\x7d"

def SERVER_VERSION : String := "1.0.0"

/-- `MAX_CACHED_SERVERS` (capacity of the API-key lane Identity Cache). -/
def MAX_CACHED_SERVERS : Nat := 100

/-- `CACHE_CONFIG.MAX_SERVERS` from src/shared/constants.ts. -/
def CACHE_CONFIG_MAX_SERVERS : Nat := 1000

/-- `TOOL_METADATA["example-tool"].title`. -/
def exampleToolTitle : String := "Example Tool"

def exampleToolPart1 : String :=
  "Performs an example operation on the provided input."

def exampleToolPart2 : String :=
  "Returns the result object with processed data, status, and metadata fields."

def exampleToolPart3 : String :=
  "Use this when you need to demonstrate the tool pattern or test the MCP server setup."

def exampleToolPart4 : String :=
  "Note: This is a placeholder tool. Replace with your actual implementation. Input must be non-empty."

/-- `getToolDescription("example-tool")`: the four parts joined by spaces. -/
def getToolDescriptionExample : String :=
  exampleToolPart1 ++ " " ++ exampleToolPart2 ++ " " ++ exampleToolPart3
    ++ " " ++ exampleToolPart4

def UI_MIME_TYPE : String := "text/html;profile=mcp-app"

/-- `UI_RESOURCES.widget.uri`. -/
def widgetUri : String := "ui://\x7b\x7bSERVER_ID\x7d\x7d/widget"

def widgetName : String := "main_widget"

def widgetDescription : String :=
  "Interactive widget for \x7b\x7bSERVER_NAME\x7d\x7d. " ++
    "TODO: Replace with a detailed description of what this widget displays and its features."

/-- `UI_RESOURCES.widget._meta`. -/
def widgetMetaJson : Json :=
  .obj [("ui", .obj
    [("csp", .obj [("connectDomains", .arr []),
                   ("resourceDomains", .arr [])]),
     ("prefersBorder", .bool true)])]

def hexDigit (n : Nat) : Char :=
  if n < 10 then Char.ofNat (48 + n) else Char.ofNat (87 + n)

def jsonEscapeChar (c : Char) : String :=
  if c = '"' then "\\\""
  else if c = '\\' then "\\\\"
  else if c = '\x08' then "\\b"
  else if c = '\x09' then "\\t"
  else if c = '\x0a' then "\\n"
  else if c = '\x0c' then "\\f"
  else if c = '\x0d' then "\\r"
  else if c.toNat < 32 then
    "\\u00" ++ String.singleton (hexDigit (c.toNat / 16))
      ++ String.singleton (hexDigit (c.toNat % 16))
  else String.singleton c

def jsonEscape (s : String) : String :=
  String.join (s.data.map jsonEscapeChar)

def spaces (n : Nat) : String := String.mk (List.replicate n ' ')

mutual

def stringifyJson (ind : Nat) : Json → String
  | .null => "null"
  | .bool b => if b then "true" else "false"
  | .num n => toString n
  | .str s => "\"" ++ jsonEscape s ++ "\""
  | .arr [] => "[]"
  | .arr (x :: xs) =>
      "[\n" ++ stringifyElems (ind + 2) (x :: xs) ++ "\n" ++ spaces ind ++ "]"
  | .obj [] => "\x7b\x7d"
  | .obj (f :: fs) =>
      "\x7b\n" ++ stringifyFields (ind + 2) (f :: fs) ++ "\n"
        ++ spaces ind ++ "\x7d"

def stringifyElems (ind : Nat) : List Json → String
  | [] => ""
  | [x] => spaces ind ++ stringifyJson ind x
  | x :: y :: xs =>
      spaces ind ++ stringifyJson ind x ++ ",\n"
        ++ stringifyElems ind (y :: xs)

def stringifyFields (ind : Nat) : List (String × Json) → String
  | [] => ""
  | [(k, v)] =>
      spaces ind ++ "\"" ++ jsonEscape k ++ "\": " ++ stringifyJson ind v
  | (k, v) :: g :: fs =>
      spaces ind ++ "\"" ++ jsonEscape k ++ "\": " ++ stringifyJson ind v
        ++ ",\n" ++ stringifyFields ind (g :: fs)

end

/-- `JSON.stringify(x, null, 2)`. -/
def jsonStringifyPretty (j : Json) : String := stringifyJson 0 j

/-- `handleInitialize` of src/api-key-handler.ts. -/
def handleInitRequest (req : JsonRpcRequest) : RpcResponse :=
  jsonRpcResponse req.id
    (.obj [("protocolVersion", .str "2024-11-05"),
           ("capabilities", .obj
             [("tools", .obj []),
              ("prompts", .obj [("listChanged", .bool true)]),
              ("resources", .obj [("listChanged", .bool true)])]),
           ("serverInfo", .obj [("name", .str SERVER_NAME),
                                ("version", .str SERVER_VERSION)])])
    none

def handlePing (req : JsonRpcRequest) : RpcResponse :=
  jsonRpcResponse req.id (.obj []) none

def handleToolsList (req : JsonRpcRequest) : RpcResponse :=
  jsonRpcResponse req.id
    (.obj [("tools", .arr [.obj
      [("name", .str "example-tool"),
       ("title", .str exampleToolTitle),
       ("description", .str getToolDescriptionExample),
       ("inputSchema", .obj
         [("type", .str "object"),
          ("properties", .obj [("input", .obj
            [("type", .str "string"),
             ("description", .str "Input string to process")])]),
          ("required", .arr [.str "input"])]),
       ("annotations", .obj
         [("readOnlyHint", .bool true),
          ("destructiveHint", .bool false),
          ("idempotentHint", .bool true),
          ("openWorldHint", .bool false)])]])])
    none

/-- The destructured `params.name` of a `tools/call` request. -/
def toolsCallName (req : JsonRpcRequest) : Option String :=
  (req.params.bind (fun p => jsonField p "name")).bind asString

/-- The destructured `params.arguments.input` with the
`(args?.input as string) || ""` fallback. -/
def toolsCallInput (req : JsonRpcRequest) : String :=
  match ((req.params.bind (fun p => jsonField p "arguments")).bind
      (fun a => jsonField a "input")).bind asString with
  | some s => s
  | none => ""

/-- `handleToolsCall` of the API-key dispatcher: only the registered
"example-tool" is recognised; any other (or missing) name yields -32602,
and the template literal prints a missing name as "undefined". -/
def handleToolsCall (req : JsonRpcRequest) (userId nowIso : String) :
    RpcResponse :=
  if toolsCallName req = some "example-tool" then
    let input := toolsCallInput req
    let result : Json := .obj
      [("message", .str ("Processed: " ++ input)),
       ("timestamp", .str nowIso),
       ("userId", .str userId)]
    jsonRpcResponse req.id
      (.obj [("content", .arr [.obj [("type", .str "text"),
               ("text", .str (jsonStringifyPretty result))]]),
             ("structuredContent", result)])
      none
  else
    jsonRpcResponse req.id .null
      (some ⟨-32602, "Unknown tool: " ++
        (match toolsCallName req with
         | some s => s
         | none => "undefined")⟩)

def handleResourcesList (req : JsonRpcRequest) : RpcResponse :=
  jsonRpcResponse req.id
    (.obj [("resources", .arr [.obj
      [("uri", .str widgetUri),
       ("name", .str widgetName),
       ("description", .str widgetDescription),
       ("mimeType", .str UI_MIME_TYPE)]])])
    none

/-- The destructured `params.uri` of a `resources/read` request. -/
def resourcesReadUri (req : JsonRpcRequest) : Option String :=
  (req.params.bind (fun p => jsonField p "uri")).bind asString

/-- `handleResourcesRead`: returns the widget HTML (whose load through the
asset collaborator may throw, which propagates as `Except.error`), or -32602
for an unknown URI (a missing URI prints as "undefined"). -/
def handleResourcesRead (req : JsonRpcRequest)
    (asset : Except String String) : Except String RpcResponse :=
  match resourcesReadUri req with
  | some uri =>
      if uri = widgetUri then
        match asset with
        | .ok html =>
            .ok (jsonRpcResponse req.id
              (.obj [("contents", .arr [.obj
                [("uri", .str widgetUri),
                 ("mimeType", .str UI_MIME_TYPE),
                 ("text", .str html),
                 ("_meta", widgetMetaJson)]])])
              none)
        | .error e => .error e
      else
        .ok (jsonRpcResponse req.id .null
          (some ⟨-32602, "Unknown resource: " ++ uri⟩))
  | none =>
      .ok (jsonRpcResponse req.id .null
        (some ⟨-32602, "Unknown resource: undefined"⟩))

def handlePromptsList (req : JsonRpcRequest) : RpcResponse :=
  jsonRpcResponse req.id (.obj [("prompts", .arr [])]) none

/-- `handleHTTPTransport`: checks `jsonrpc === "2.0"`, then routes on the
method name.  Its try/catch wraps the WHOLE dispatch, so any exception raised
inside (the body parse, or the asset load reached through `resources/read`)
becomes a -32700 "Parse error" response with the sentinel id "error". -/
def handleHTTPTransport (body : BodyParse) (userId nowIso : String)
    (asset : Except String String) : RpcResponse :=
  match body with
  | .failed msg =>
      jsonRpcResponse (.str "error") .null
        (some ⟨-32700, "Parse error: " ++ msg⟩)
  | .parsed req =>
      if req.jsonrpc ≠ "2.0" then
        jsonRpcResponse req.id .null (some ⟨-32600, "Invalid Request"⟩)
      else if req.method = "initialize" then handleInitRequest req
      else if req.method = "ping" then handlePing req
      else if req.method = "tools/list" then handleToolsList req
      else if req.method = "tools/call" then handleToolsCall req userId nowIso
      else if req.method = "resources/list" then handleResourcesList req
      else if req.method = "resources/read" then
        match handleResourcesRead req asset with
        | .ok resp => resp
        | .error e =>
            jsonRpcResponse (.str "error") .null
              (some ⟨-32700, "Parse error: " ++ e⟩)
      else if req.method = "prompts/list" then handlePromptsList req
      else
        jsonRpcResponse req.id .null
          (some ⟨-32601, "Method not found: " ++ req.method⟩)

/-- `isApiKeyRequest` (src/index.ts): key lane iff the path is "/mcp", a
non-empty header is present, and the header with the first "Bearer "
occurrence stripped starts with "wtyk_". -/
def isApiKeyRequest (pathname : String) (authHeader : Option String) : Bool :=
  if pathname ≠ "/mcp" then false
  else
    match authHeader with
    | none => false
    | some h =>
        if h = "" then false
        else strStartsWith (replaceFirstS "Bearer " "" h) "wtyk_"

/-- The `authHeader?.replace("Bearer ", "")` token extraction of
`handleApiKeyRequest`. -/
def extractApiKey (authHeader : Option String) : Option String :=
  authHeader.map (replaceFirstS "Bearer " "")

/-- `getOrCreateServer`: consult the Identity Cache; on a miss build a server
(opaque here) and cache it under the user id. -/
def getOrCreateServer (cache : LRUCache String Unit) (userId : String)
    (now : Nat) : Unit × LRUCache String Unit :=
  match lruGet cache userId now with
  | (some s, cache') => (s, cache')
  | (none, cache') => ((), (lruSet cache' userId () now).1)

/-- The HTTP-level outcome of `handleApiKeyRequest`. -/
inductive ApiKeyResponse where
  | httpError (message : String) (status : Nat)
  | rpc (resp : RpcResponse)

/-- `handleApiKeyRequest`: extracts the token, short-circuits with 401 when
it is missing/empty or fails validation (`validateApiKey` is an external
collaborator, passed as `validate`), then resolves the per-user server
through the Identity Cache and dispatches.  Returns the response together
with the resulting Identity Cache state. -/
def handleApiKeyRequest (authHeader : Option String)
    (validate : String → Option (String × String))
    (cache : LRUCache String Unit) (now : Nat) (pathname : String)
    (nowIso : String) (asset : Except String String) (body : BodyParse) :
    ApiKeyResponse × LRUCache String Unit :=
  match extractApiKey authHeader with
  | none => (.httpError "Missing Authorization header" 401, cache)
  | some key =>
      if key = "" then (.httpError "Missing Authorization header" 401, cache)
      else
        match validate key with
        | none => (.httpError "Invalid or expired API key" 401, cache)
        | some (userId, _email) =>
            let p := getOrCreateServer cache userId now
            if pathname = "/mcp" then
              (.rpc (handleHTTPTransport body userId nowIso asset), p.2)
            else (.httpError "Invalid endpoint. Use /mcp" 400, p.2)

/-- Number of occurrences of a character in a string. -/
def countChar (c : Char) (s : String) : Nat := s.data.count c

/-- A syntactically valid raw payload with every optional substructure absent
(identifiers, capital, shareholders, representation, activity lists, address,
extract timestamp); the always-present scalar fields are parameters. -/
def allOptionalAbsentRaw (nazwa formaPrawna numerKRS dataRej stan : String) :
    KrsApiResponse :=
  ⟨⟨⟨numerKRS, dataRej, stan, none⟩,
    ⟨⟨⟨formaPrawna, none, nazwa⟩, none, none, none⟩, none, none⟩⟩⟩

/-- A concrete raw payload whose capital value contains two commas. -/
def c8Raw : KrsApiResponse :=
  ⟨⟨⟨"0000000001", "2020-01-01", "2024-01-01", none⟩,
    ⟨⟨⟨"SP. Z O.O.", none, "TESTOWA"⟩, none,
      some ⟨⟨"1,2,3", "PLN"⟩⟩, none⟩, none, none⟩⟩⟩

/-! Theorems: helper lemmas and the claim theorems. -/

/-! Lemmas about the LRU operations. -/

theorem length_updateAccess {K V : Type} [DecidableEq K] (k : K) (now : Nat) :
    ∀ l : List (K × LRUEntry V), (updateAccess k now l).length = l.length
  | [] => rfl
  | (k', e) :: tl => by
      by_cases h : k' = k <;>
        simp [updateAccess, h, length_updateAccess k now tl]

theorem setEntry_length {K V : Type} [DecidableEq K] (k : K) (v : V) (now : Nat) :
    ∀ l : List (K × LRUEntry V),
      (lookupEntry k l = none → (setEntry k v now l).length = l.length + 1) ∧
      (∀ e0, lookupEntry k l = some e0 → (setEntry k v now l).length = l.length)
  | [] => ⟨fun _ => rfl, fun e0 h => by simp [lookupEntry] at h⟩
  | (k', e) :: tl => by
      by_cases hk : k' = k
      · refine ⟨fun h => ?_, fun e0 _ => ?_⟩
        · simp [lookupEntry, hk] at h
        · simp [setEntry, hk]
      · have ih := setEntry_length k v now tl
        refine ⟨fun h => ?_, fun e0 h => ?_⟩
        · have h' : lookupEntry k tl = none := by simpa [lookupEntry, hk] using h
          simp [setEntry, hk, ih.1 h']
        · have h' : lookupEntry k tl = some e0 := by simpa [lookupEntry, hk] using h
          simp [setEntry, hk, ih.2 e0 h']

theorem scanOldest_acc_isSome {K V : Type} :
    ∀ (l : List (K × LRUEntry V)) (k0 : K) (t0 : Nat),
      ∃ p, scanOldest (some (k0, t0)) l = some p
  | [], k0, t0 => ⟨(k0, t0), rfl⟩
  | (k, e) :: tl, k0, t0 => by
      by_cases h : e.lastAccessed < t0
      · simpa [scanOldest, h] using scanOldest_acc_isSome tl k e.lastAccessed
      · simpa [scanOldest, h] using scanOldest_acc_isSome tl k0 t0

theorem scanOldest_min {K V : Type} :
    ∀ (l : List (K × LRUEntry V)) (acc : Option (K × Nat)) (k : K) (t : Nat),
      scanOldest acc l = some (k, t) →
      (∀ p ∈ l, t ≤ p.2.lastAccessed) ∧ (∀ k0 t0, acc = some (k0, t0) → t ≤ t0)
  | [], acc, k, t => by
      intro h
      refine ⟨fun p hp => absurd hp (List.not_mem_nil p), fun k0 t0 ha => ?_⟩
      rw [ha] at h
      simp only [scanOldest, Option.some.injEq, Prod.mk.injEq] at h
      omega
  | (k1, e1) :: tl, acc, k, t => by
      intro h
      match acc with
      | none =>
          have h' : scanOldest (some (k1, e1.lastAccessed)) tl = some (k, t) := by
            simpa [scanOldest] using h
          have ih := scanOldest_min tl (some (k1, e1.lastAccessed)) k t h'
          refine ⟨fun p hp => ?_, fun k0 t0 ha => by simp at ha⟩
          rcases List.mem_cons.mp hp with rfl | hp
          · exact ih.2 k1 e1.lastAccessed rfl
          · exact ih.1 p hp
      | some (k0, t0) =>
          by_cases hlt : e1.lastAccessed < t0
          · have h' : scanOldest (some (k1, e1.lastAccessed)) tl = some (k, t) := by
              simpa [scanOldest, hlt] using h
            have ih := scanOldest_min tl (some (k1, e1.lastAccessed)) k t h'
            have hte : t ≤ e1.lastAccessed := ih.2 k1 e1.lastAccessed rfl
            refine ⟨fun p hp => ?_, fun k0' t0' ha => ?_⟩
            · rcases List.mem_cons.mp hp with rfl | hp
              · exact hte
              · exact ih.1 p hp
            · simp only [Option.some.injEq, Prod.mk.injEq] at ha
              omega
          · have h' : scanOldest (some (k0, t0)) tl = some (k, t) := by
              simpa [scanOldest, hlt] using h
            have ih := scanOldest_min tl (some (k0, t0)) k t h'
            have ht0 : t ≤ t0 := ih.2 k0 t0 rfl
            refine ⟨fun p hp => ?_, fun k0' t0' ha => ?_⟩
            · rcases List.mem_cons.mp hp with rfl | hp
              · exact le_trans ht0 (Nat.not_lt.mp hlt)
              · exact ih.1 p hp
            · simp only [Option.some.injEq, Prod.mk.injEq] at ha
              omega

theorem scanOldest_mem {K V : Type} :
    ∀ (l : List (K × LRUEntry V)) (acc : Option (K × Nat)) (k : K) (t : Nat),
      scanOldest acc l = some (k, t) →
      (∃ e : LRUEntry V, (k, e) ∈ l ∧ e.lastAccessed = t) ∨ acc = some (k, t)
  | [], acc, k, t => fun h => .inr (by simpa [scanOldest] using h)
  | (k1, e1) :: tl, acc, k, t => by
      intro h
      match acc with
      | none =>
          have h' : scanOldest (some (k1, e1.lastAccessed)) tl = some (k, t) := by
            simpa [scanOldest] using h
          rcases scanOldest_mem tl _ k t h' with ⟨e, he, ht⟩ | ha
          · exact .inl ⟨e, List.mem_cons_of_mem _ he, ht⟩
          · simp only [Option.some.injEq, Prod.mk.injEq] at ha
            obtain ⟨rfl, rfl⟩ := ha
            exact .inl ⟨e1, List.mem_cons_self _ _, rfl⟩
      | some (k0, t0) =>
          by_cases hlt : e1.lastAccessed < t0
          · have h' : scanOldest (some (k1, e1.lastAccessed)) tl = some (k, t) := by
              simpa [scanOldest, hlt] using h
            rcases scanOldest_mem tl _ k t h' with ⟨e, he, ht⟩ | ha
            · exact .inl ⟨e, List.mem_cons_of_mem _ he, ht⟩
            · simp only [Option.some.injEq, Prod.mk.injEq] at ha
              obtain ⟨rfl, rfl⟩ := ha
              exact .inl ⟨e1, List.mem_cons_self _ _, rfl⟩
          · have h' : scanOldest (some (k0, t0)) tl = some (k, t) := by
              simpa [scanOldest, hlt] using h
            rcases scanOldest_mem tl _ k t h' with ⟨e, he, ht⟩ | ha
            · exact .inl ⟨e, List.mem_cons_of_mem _ he, ht⟩
            · exact .inr ha

theorem deleteKey_length {K V : Type} [DecidableEq K] (k : K) :
    ∀ l : List (K × LRUEntry V), (∃ e, (k, e) ∈ l) →
      (deleteKey k l).length + 1 = l.length
  | [], h => by simp at h
  | (k', e') :: tl, h => by
      by_cases hk : k' = k
      · simp [deleteKey, hk]
      · obtain ⟨e, he⟩ := h
        rcases List.mem_cons.mp he with heq | he'
        · exact absurd (congrArg Prod.fst heq).symm hk
        · have ih := deleteKey_length k tl ⟨e, he'⟩
          simp only [deleteKey, hk, if_false, List.length_cons]
          omega

theorem lookupEntry_deleteKey_none {K V : Type} [DecidableEq K] (k k0 : K) :
    ∀ l : List (K × LRUEntry V), lookupEntry k l = none →
      lookupEntry k (deleteKey k0 l) = none
  | [], _ => rfl
  | (k', e') :: tl, h => by
      have hk : ¬ k' = k := by
        intro hh
        simp [lookupEntry, hh] at h
      have htl : lookupEntry k tl = none := by simpa [lookupEntry, hk] using h
      by_cases h0 : k' = k0
      · simpa [deleteKey, h0] using htl
      · simp [deleteKey, h0, lookupEntry, hk, lookupEntry_deleteKey_none k k0 tl htl]

theorem scanOldest_of_ne_nil {K V : Type} :
    ∀ l : List (K × LRUEntry V), l ≠ [] → ∃ p, scanOldest none l = some p
  | [], h => absurd rfl h
  | (k1, e1) :: tl, _ => by
      simpa [scanOldest] using scanOldest_acc_isSome tl k1 e1.lastAccessed

theorem evictLRU_spec {K V : Type} [DecidableEq K] (c : LRUCache K V)
    (h : c.entries ≠ []) :
    ∃ k0 : K, (∃ e, (k0, e) ∈ c.entries) ∧
      evictLRU c = (⟨deleteKey k0 c.entries, c.maxSize⟩,
        some ⟨"lru_cache_eviction", k0, c.entries.length⟩) := by
  obtain ⟨⟨k0, t0⟩, hscan⟩ := scanOldest_of_ne_nil c.entries h
  refine ⟨k0, ?_, ?_⟩
  · rcases scanOldest_mem c.entries none k0 t0 hscan with ⟨e, he, _⟩ | ha
    · exact ⟨e, he⟩
    · simp at ha
  · unfold evictLRU
    rw [hscan]

theorem evictLRU_maxSize {K V : Type} [DecidableEq K] (c : LRUCache K V) :
    (evictLRU c).1.maxSize = c.maxSize := by
  unfold evictLRU
  cases h : scanOldest (none : Option (K × Nat)) c.entries with
  | none => rfl
  | some p => obtain ⟨k0, t0⟩ := p; rfl

theorem lruSet_length_le {K V : Type} [DecidableEq K] (c : LRUCache K V)
    (k : K) (v : V) (now : Nat) (h1 : 1 ≤ c.maxSize)
    (h2 : c.entries.length ≤ c.maxSize) :
    (lruSet c k v now).1.entries.length ≤ c.maxSize := by
  unfold lruSet
  by_cases hc : c.maxSize ≤ c.entries.length ∧ (lookupEntry k c.entries).isNone
  · rw [if_pos hc]
    have hne : c.entries ≠ [] := by
      have : 1 ≤ c.entries.length := h1.trans hc.1
      exact List.ne_nil_of_length_pos (by omega)
    obtain ⟨k0, ⟨e, he⟩, heq⟩ := evictLRU_spec c hne
    rw [heq]
    have hdel : (deleteKey k0 c.entries).length + 1 = c.entries.length :=
      deleteKey_length k0 c.entries ⟨e, he⟩
    have hlook : lookupEntry k c.entries = none := by
      rcases Option.isNone_iff_eq_none.mp hc.2 with h'
      exact h'
    have hlook' : lookupEntry k (deleteKey k0 c.entries) = none :=
      lookupEntry_deleteKey_none k k0 c.entries hlook
    have := (setEntry_length k v now (deleteKey k0 c.entries)).1 hlook'
    simp only [this]
    omega
  · rw [if_neg hc]
    cases hl : lookupEntry k c.entries with
    | some e =>
        have := (setEntry_length k v now c.entries).2 e hl
        simp only [this]
        exact h2
    | none =>
        have hlt : ¬ c.maxSize ≤ c.entries.length := by
          intro hA
          exact hc ⟨hA, by simp [hl]⟩
        have := (setEntry_length k v now c.entries).1 hl
        simp only [this]
        omega

theorem applyOp_maxSize {K V : Type} [DecidableEq K] (c : LRUCache K V)
    (op : CacheOp K V) : (applyOp c op).maxSize = c.maxSize := by
  cases op with
  | get k now =>
      simp only [applyOp, lruGet]
      cases lookupEntry k c.entries <;> rfl
  | set k v now =>
      simp only [applyOp, lruSet]
      by_cases hc : c.maxSize ≤ c.entries.length ∧ (lookupEntry k c.entries).isNone
      · rw [if_pos hc]
        exact evictLRU_maxSize c
      · rw [if_neg hc]

theorem applyOp_length_le {K V : Type} [DecidableEq K] (c : LRUCache K V)
    (op : CacheOp K V) (h1 : 1 ≤ c.maxSize)
    (h2 : c.entries.length ≤ c.maxSize) :
    (applyOp c op).entries.length ≤ c.maxSize := by
  cases op with
  | get k now =>
      simp only [applyOp, lruGet]
      cases lookupEntry k c.entries with
      | some e => simpa [length_updateAccess] using h2
      | none => exact h2
  | set k v now => exact lruSet_length_le c k v now h1 h2

theorem runOps_length_le {K V : Type} [DecidableEq K] :
    ∀ (ops : List (CacheOp K V)) (c : LRUCache K V), 1 ≤ c.maxSize →
      c.entries.length ≤ c.maxSize →
      (runOps c ops).entries.length ≤ c.maxSize
  | [], c, _, h2 => h2
  | op :: ops, c, h1, h2 => by
      have hmax : (applyOp c op).maxSize = c.maxSize := applyOp_maxSize c op
      have hlen : (applyOp c op).entries.length ≤ c.maxSize :=
        applyOp_length_le c op h1 h2
      have hrec := runOps_length_le ops (applyOp c op)
        (by rw [hmax]; exact h1) (by rw [hmax]; exact hlen)
      simpa [runOps, List.foldl, hmax] using hrec

/-! Claim C1 and claim C9: the Identity Cache. -/

/-- C1 (amended): for every capacity N ≥ 1 and every sequence of `get`/`set`
calls starting from an empty Identity Cache, the cache size never exceeds N;
and whenever `evictLRU` removes an entry, the evicted entry has the smallest
`lastAccessed` timestamp among all entries at that moment (no entry more
recently touched by `get`/`set` is evicted). -/
theorem c1_lru_bounded_and_evicts_least_recent (N : Nat) (hN : 1 ≤ N) :
    (∀ ops : List (CacheOp String Unit),
        (runOps (emptyCache String Unit N) ops).entries.length ≤ N) ∧
    (∀ (c c' : LRUCache String Unit) (log : EvictionLog String),
        evictLRU c = (c', some log) →
        ∃ e : LRUEntry Unit, (log.evictedKey, e) ∈ c.entries ∧
          ∀ p ∈ c.entries, e.lastAccessed ≤ p.2.lastAccessed) := by
  constructor
  · intro ops
    exact runOps_length_le ops (emptyCache String Unit N) hN (by simp [emptyCache])
  · intro c c' log h
    have hne : c.entries ≠ [] := by
      intro hnil
      rw [show c = ⟨[], c.maxSize⟩ from by cases c; simp_all] at h
      simp [evictLRU, scanOldest] at h
    obtain ⟨⟨k0, t0⟩, hscan⟩ := scanOldest_of_ne_nil c.entries hne
    have hev : evictLRU c = (⟨deleteKey k0 c.entries, c.maxSize⟩,
        some ⟨"lru_cache_eviction", k0, c.entries.length⟩) := by
      unfold evictLRU
      rw [hscan]
    rw [hev, Prod.ext_iff] at h
    rw [Option.some_inj] at h
    obtain ⟨h1, h2⟩ := h
    subst h2
    rcases scanOldest_mem c.entries none k0 t0 hscan with ⟨e, he, hte⟩ | ha
    · refine ⟨e, he, fun p hp => ?_⟩
      rw [hte]
      exact (scanOldest_min c.entries none k0 t0 hscan).1 p hp
    · simp at ha

/-- C1 counterexample: with capacity N = 0 a single `set` leaves one entry in
the cache, so the size exceeds the capacity (the eviction scan finds nothing to
remove in an empty map and the insert still happens). -/
theorem c1_counterexample :
    (emptyCache String Unit 0).maxSize = 0 ∧
    (runOps (emptyCache String Unit 0) [CacheOp.set "a" () 0]).entries.length
      = 1 := by
  constructor
  · rfl
  · rfl

/-- C1 witness: the amended theorem applied at capacity 1 and at a concrete
two-entry cache whose least-recently-accessed entry is "b". -/
theorem c1_witness :
    ((runOps (emptyCache String Unit 1)
        [CacheOp.set "a" () 0, CacheOp.set "b" () 1]).entries.length ≤ 1) ∧
    (∃ e : LRUEntry Unit,
        (("b" : String), e) ∈
          ([("a", ⟨(), 5⟩), ("b", ⟨(), 3⟩)] : List (String × LRUEntry Unit)) ∧
        ∀ p ∈ ([("a", ⟨(), 5⟩), ("b", ⟨(), 3⟩)] :
            List (String × LRUEntry Unit)),
          e.lastAccessed ≤ p.2.lastAccessed) := by
  constructor
  · exact (c1_lru_bounded_and_evicts_least_recent 1 (by decide)).1
      [CacheOp.set "a" () 0, CacheOp.set "b" () 1]
  · exact (c1_lru_bounded_and_evicts_least_recent 1 (by decide)).2
      ⟨[("a", ⟨(), 5⟩), ("b", ⟨(), 3⟩)], 2⟩ ⟨[("a", ⟨(), 5⟩)], 2⟩
      ⟨"lru_cache_eviction", "b", 2⟩ (by decide)

/-- C9 (amended): whenever `evictLRU` removes an entry it emits exactly one
structured notification whose event is "lru_cache_eviction", whose key is the
evicted key, and whose `cache_size` is the size read BEFORE the entry is
removed (one more than the resulting size); when nothing is removed, nothing
is logged and the state is unchanged. The operation is a total function, so
it never fails. -/
theorem c9_eviction_log :
    (∀ (c c' : LRUCache String Unit) (log : EvictionLog String),
        evictLRU c = (c', some log) →
        log.event = "lru_cache_eviction" ∧
        (∃ e : LRUEntry Unit, (log.evictedKey, e) ∈ c.entries) ∧
        log.cacheSize = c.entries.length ∧
        c'.entries.length + 1 = c.entries.length) ∧
    (∀ c c' : LRUCache String Unit, evictLRU c = (c', none) → c' = c) := by
  constructor
  · intro c c' log h
    have hne : c.entries ≠ [] := by
      intro hnil
      rw [show c = ⟨[], c.maxSize⟩ from by cases c; simp_all] at h
      simp [evictLRU, scanOldest] at h
    obtain ⟨k0, ⟨e, he⟩, hev⟩ := evictLRU_spec c hne
    rw [hev, Prod.ext_iff] at h
    rw [Option.some_inj] at h
    obtain ⟨h1, h2⟩ := h
    subst h2
    subst h1
    exact ⟨rfl, ⟨e, he⟩, rfl, deleteKey_length k0 c.entries ⟨e, he⟩⟩
  · intro c c' h
    by_cases hne : c.entries = []
    · have hc : evictLRU c = (c, none) := by
        rw [show c = ⟨[], c.maxSize⟩ from by cases c; simp_all]
        rfl
      rw [hc, Prod.ext_iff] at h
      exact h.1.symm
    · obtain ⟨k0, _, hev⟩ := evictLRU_spec c hne
      rw [hev, Prod.ext_iff] at h
      exact absurd h.2 (by simp)

/-- C9 counterexample: evicting from a two-entry cache logs `cache_size = 2`,
while the size after the entry is removed is 1, so the notification carries the
pre-removal size, not the resulting size the claim states. -/
theorem c9_counterexample :
    evictLRU (⟨[("a", ⟨(), 5⟩), ("b", ⟨(), 3⟩)], 2⟩ : LRUCache String Unit)
      = (⟨[("a", ⟨(), 5⟩)], 2⟩, some ⟨"lru_cache_eviction", "b", 2⟩) ∧
    ((⟨[("a", ⟨(), 5⟩)], 2⟩ : LRUCache String Unit).entries.length = 1 ∧
      (2 : Nat) ≠ 1) := by
  refine ⟨by decide, by decide, by decide⟩

/-- C9 witness: the amended theorem applied at a concrete eviction and at a
concrete empty cache. -/
theorem c9_witness :
    (("lru_cache_eviction" : String) = "lru_cache_eviction" ∧
      (∃ e : LRUEntry Unit, (("b" : String), e) ∈
        ([("a", ⟨(), 5⟩), ("b", ⟨(), 3⟩)] : List (String × LRUEntry Unit))) ∧
      (2 : Nat) = 2 ∧ 1 + 1 = 2) ∧
    (⟨[], 0⟩ : LRUCache String Unit) = ⟨[], 0⟩ := by
  constructor
  · exact c9_eviction_log.1 ⟨[("a", ⟨(), 5⟩), ("b", ⟨(), 3⟩)], 2⟩
      ⟨[("a", ⟨(), 5⟩)], 2⟩ ⟨"lru_cache_eviction", "b", 2⟩ (by decide)
  · exact c9_eviction_log.2 ⟨[], 0⟩ ⟨[], 0⟩ (by decide)

theorem replaceFirstS_of_not_contains (pat repl s : String)
    (h : containsSub pat s = false) : replaceFirstS pat repl s = s := by
  unfold containsSub at h
  unfold replaceFirstS replaceFirstL
  cases hs : splitFirst pat.data s.data with
  | none => cases s; rfl
  | some p => rw [hs] at h; simp at h

theorem ttlLookup_ttlPut_same {V : Type} (k : String) (v : V) (ttl t0 t1 : Nat) :
    ∀ s : List (String × TTLEntry V),
      ttlLookup k t1 (ttlPut k v ttl t0 s)
        = if t1 < t0 + ttl then some v else none
  | [] => by simp [ttlPut, ttlLookup]
  | (k', e) :: rest => by
      by_cases hk : k' = k
      · simp [ttlPut, ttlLookup, hk]
      · simp [ttlPut, ttlLookup, hk,
          ttlLookup_ttlPut_same k v ttl t0 t1 rest]

/-- C2: storing a record in the Response Cache and looking it up strictly
within the TTL window returns the stored value; looking it up once the TTL
window has elapsed returns absent, exactly like a lookup of a never-cached
key in an empty store.  In addition, after `getCompany` populates the cache
from a fetched payload, a second `getCompany` within the TTL window returns
the same record with the cache unchanged, regardless of the fetch outcome. -/
theorem c2_ttl_roundtrip :
    (∀ (V : Type) (s : List (String × TTLEntry V)) (k : String) (v : V)
        (ttl t0 t1 : Nat),
      (t1 < t0 + ttl → ttlLookup k t1 (ttlPut k v ttl t0 s) = some v) ∧
      (t0 + ttl ≤ t1 →
        ttlLookup k t1 (ttlPut k v ttl t0 s) = none ∧
        ttlLookup k t1 (ttlPut k v ttl t0 s)
          = ttlLookup k t1 ([] : List (String × TTLEntry V)))) ∧
    (∀ (krs : String) (ty : ExtractType)
        (cache cache' : List (String × TTLEntry CompanyData))
        (t0 t1 : Nat) (nowIso nowIso2 : String) (raw : KrsApiResponse)
        (d : CompanyData) (f : FetchResult),
      getCompany krs ty cache t0 nowIso (.httpOk raw) = .ok (d, cache') →
      ttlLookup ("krs:" ++ krs ++ ":" ++ ty.str) t0 cache = none →
      t1 < t0 + 3600 →
      getCompany krs ty cache' t1 nowIso2 f = .ok (d, cache')) := by
  constructor
  · intro V s k v ttl t0 t1
    have hsame := ttlLookup_ttlPut_same k v ttl t0 t1 s
    constructor
    · intro hlt
      rw [hsame, if_pos hlt]
    · intro hge
      have hnot : ¬ t1 < t0 + ttl := by omega
      refine ⟨by rw [hsame, if_neg hnot], ?_⟩
      rw [hsame, if_neg hnot]
      rfl
  · intro krs ty cache cache' t0 t1 nowIso nowIso2 raw d f h hmiss hlt
    have h' : (Except.ok (transformResponse raw nowIso,
        ttlPut ("krs:" ++ krs ++ ":" ++ ty.str) (transformResponse raw nowIso)
          3600 t0 cache) :
        Except String (CompanyData × List (String × TTLEntry CompanyData)))
        = .ok (d, cache') := by
      rw [← h]
      simp only [getCompany, hmiss]
    rw [Except.ok.injEq, Prod.ext_iff] at h'
    obtain ⟨hd, hc⟩ := h'
    subst hd
    subst hc
    simp [getCompany, ttlLookup_ttlPut_same, hlt]

/-- C2 witness: the round trip at a concrete key, value, TTL and timestamps,
and the `getCompany` cache hit at a concrete payload. -/
theorem c2_witness :
    ttlLookup "krs:0000000001:aktualny" 100
        (ttlPut "krs:0000000001:aktualny" (7 : Nat) 3600 50 []) = some 7 ∧
    ttlLookup "krs:0000000001:aktualny" 3650
        (ttlPut "krs:0000000001:aktualny" (7 : Nat) 3600 50 []) = none ∧
    getCompany "0000000001" .aktualny
        (ttlPut "krs:0000000001:aktualny"
          (transformResponse (allOptionalAbsentRaw "A" "B" "0000000001" "D" "E") "T")
          3600 0 [])
        100 "T2" .timeoutErr
      = .ok (transformResponse (allOptionalAbsentRaw "A" "B" "0000000001" "D" "E") "T",
          ttlPut "krs:0000000001:aktualny"
            (transformResponse (allOptionalAbsentRaw "A" "B" "0000000001" "D" "E") "T")
            3600 0 []) := by
  refine ⟨?_, ?_, ?_⟩
  · exact (c2_ttl_roundtrip.1 Nat [] "krs:0000000001:aktualny" 7 3600 50 100).1
      (by decide)
  · exact ((c2_ttl_roundtrip.1 Nat [] "krs:0000000001:aktualny" 7 3600 50 3650).2
      (by decide)).1
  · exact c2_ttl_roundtrip.2 "0000000001" .aktualny []
      (ttlPut "krs:0000000001:aktualny"
        (transformResponse (allOptionalAbsentRaw "A" "B" "0000000001" "D" "E") "T")
        3600 0 [])
      0 100 "T" "T2" (allOptionalAbsentRaw "A" "B" "0000000001" "D" "E")
      (transformResponse (allOptionalAbsentRaw "A" "B" "0000000001" "D" "E") "T")
      .timeoutErr rfl rfl (by decide)

/-! Claim C3: totality of the transform on payloads with all optionals
absent. -/

/-- C3 (amended): `transform` is total: on any syntactically valid payload
with every optional substructure absent it raises no failure (it is a total
function) and produces the full fixed-shape record whose corresponding fields
are empty collections, null scalars, or the fixed fallback constants of the
code ("POLSKA" for the country, "ZARZĄD" for the organ name, "Brak danych"
for the representation method). -/
theorem c3_transform_total_with_defaults
    (nazwa formaPrawna numerKRS dataRej stan nowIso : String) :
    transformResponse
        (allOptionalAbsentRaw nazwa formaPrawna numerKRS dataRej stan) nowIso
      = ⟨nazwa, numerKRS, none, none, formaPrawna,
         ⟨"", "", "", "", none, "", "POLSKA"⟩,
         none, [], ⟨"ZARZĄD", "Brak danych", []⟩, [], [],
         dataRej, stan, nowIso⟩ := rfl

/-- C3 counterexample: on the all-optionals-absent payload the address country
and the representation organ name (fields corresponding to absent optional
substructures) are the non-empty constants "POLSKA" and "ZARZĄD", which are
neither empty collections nor null scalars. -/
theorem c3_counterexample :
    (transformResponse (allOptionalAbsentRaw "TESTOWA" "SP. Z O.O."
        "0000000001" "2020-01-01" "2024-01-01") "T").address.country
      = "POLSKA" ∧
    (transformResponse (allOptionalAbsentRaw "TESTOWA" "SP. Z O.O."
        "0000000001" "2020-01-01" "2024-01-01") "T").representation.organName
      = "ZARZĄD" ∧
    ("POLSKA" : String) ≠ "" ∧ ("ZARZĄD" : String) ≠ "" := by
  exact ⟨rfl, rfl, by decide, by decide⟩

/-! Claim C8: capital decimal-separator normalisation. -/

theorem splitFirst_comma_none_count :
    ∀ l : List Char, splitFirst [','] l = none → l.count ',' = 0
  | [] => fun _ => rfl
  | c :: cs => fun h => by
      by_cases hc : c = ','
      · subst hc
        have hpre : List.isPrefixOf [','] (',' :: cs) = true := by
          simp [List.isPrefixOf]
        simp [splitFirst, hpre] at h
      · have hpre : List.isPrefixOf [','] (c :: cs) = false := by
          have hb : (',' == c) = false := by
            rw [beq_eq_false_iff_ne]
            exact fun hcc => hc hcc.symm
          simp [List.isPrefixOf, hb]
        cases hs : splitFirst [','] cs with
        | some p => simp [splitFirst, hpre, hs] at h
        | none =>
            have ih := splitFirst_comma_none_count cs hs
            simp [List.count_cons, hc, ih]

theorem replaceComma_count_le_one :
    ∀ l : List Char, l.count ',' ≤ 1 →
      (replaceFirstL [','] ['.'] l).count ',' = 0
  | [] => fun _ => rfl
  | c :: cs => fun h => by
      by_cases hc : c = ','
      · subst hc
        have hpre : List.isPrefixOf [','] (',' :: cs) = true := by
          simp [List.isPrefixOf]
        have hcount : cs.count ',' = 0 := by
          simp [List.count_cons] at h
          omega
        simp [replaceFirstL, splitFirst, hpre, List.count_cons, hcount]
      · have hpre : List.isPrefixOf [','] (c :: cs) = false := by
          have hb : (',' == c) = false := by
            rw [beq_eq_false_iff_ne]
            exact fun hcc => hc hcc.symm
          simp [List.isPrefixOf, hb]
        have hcs : cs.count ',' ≤ 1 := by
          simp [List.count_cons, hc] at h
          omega
        cases hs : splitFirst [','] cs with
        | some p =>
            obtain ⟨pre, post⟩ := p
            have hrec := replaceComma_count_le_one cs hcs
            have hrecl : replaceFirstL [','] ['.'] cs = pre ++ ['.'] ++ post := by
              simp [replaceFirstL, hs]
            rw [hrecl] at hrec
            have hrepl : replaceFirstL [','] ['.'] (c :: cs)
                = c :: (pre ++ ['.'] ++ post) := by
              simp [replaceFirstL, splitFirst, hpre, hs]
            rw [hrepl]
            simp [List.count_cons, hc]
            simp [List.count_append] at hrec ⊢
            omega
        | none =>
            have hrepl : replaceFirstL [','] ['.'] (c :: cs) = c :: cs := by
              simp [replaceFirstL, splitFirst, hpre, hs]
            rw [hrepl]
            have ih := splitFirst_comma_none_count cs hs
            simp [List.count_cons, hc, ih]

/-- C8 (amended): `transform` normalises the capital value by replacing the
FIRST occurrence of a comma with a dot, so whenever the source numeric string
contains at most one comma (the decimal-style format), no comma remains in the
output value; the produced capital record is exactly the source value with
the first comma replaced, paired with the source currency. -/
theorem c8_capital_normalisation :
    (∀ s : String, countChar ',' s ≤ 1 →
        countChar ',' (replaceFirstS "," "." s) = 0) ∧
    (∀ (raw : KrsApiResponse) (nowIso : String) (kap : Kapital),
        raw.odpis.dane.dzial1.kapital = some kap →
        (transformResponse raw nowIso).capital
          = some ⟨replaceFirstS "," "."
              kap.wysokoscKapitaluZakladowego.wartosc,
              kap.wysokoscKapitaluZakladowego.waluta⟩) := by
  constructor
  · intro s hs
    exact replaceComma_count_le_one s.data hs
  · intro raw nowIso kap h
    simp [transformResponse, h]

/-- C8 counterexample: a capital value with two commas keeps its second comma
(`"1,2,3".replace(",", ".")` is `"1.2,3"`), so not every comma is normalised
and a comma remains in the output value. -/
theorem c8_counterexample :
    (transformResponse c8Raw "T").capital = some ⟨"1.2,3", "PLN"⟩ ∧
    countChar ',' "1.2,3" = 1 ∧ (1 : Nat) ≠ 0 := by
  exact ⟨rfl, rfl, by decide⟩

/-- C8 witness: the amended theorem applied at a decimal-style value with one
comma, and at the concrete payload `c8Raw`. -/
theorem c8_witness :
    countChar ',' (replaceFirstS "," "." "50000,00") = 0 ∧
    (transformResponse c8Raw "T").capital
      = some ⟨replaceFirstS "," "." "1,2,3", "PLN"⟩ := by
  constructor
  · exact c8_capital_normalisation.1 "50000,00" (by decide)
  · exact c8_capital_normalisation.2 c8Raw "T" ⟨⟨"1,2,3", "PLN"⟩⟩ rfl

/-! Claim C10: Bearer-prefix handling on the key-based lane. -/

/-- C10 (amended): a header whose value is a raw token starting with "wtyk_"
and not containing the substring "Bearer " anywhere is routed to the key-based
lane and the exact raw value is passed to credential validation; lane
selection and token extraction strip only the first occurrence of the
substring "Bearer ", so a token containing that substring is altered before
validation. -/
theorem c10_bearer_strip (t : String)
    (h1 : strStartsWith t "wtyk_" = true)
    (h2 : containsSub "Bearer " t = false) :
    isApiKeyRequest "/mcp" (some t) = true ∧
    extractApiKey (some t) = some t := by
  have hrep : replaceFirstS "Bearer " "" t = t :=
    replaceFirstS_of_not_contains "Bearer " "" t h2
  have hne : ¬ t = "" := by
    intro ht
    subst ht
    exact absurd h1 (by decide)
  constructor
  · simp [isApiKeyRequest, hne, hrep, h1]
  · simp [extractApiKey, hrep]

/-- C10 counterexample: the raw header value "wtyk_Bearer x" (no "Bearer "
prefix, token starts with "wtyk_") is routed to the key-based lane, but
validation receives "wtyk_x", not the raw value: the first occurrence of the
substring "Bearer " is stripped from the middle of the token. -/
theorem c10_counterexample :
    isApiKeyRequest "/mcp" (some "wtyk_Bearer x") = true ∧
    extractApiKey (some "wtyk_Bearer x") = some "wtyk_x" ∧
    ("wtyk_x" : String) ≠ "wtyk_Bearer x" := by
  exact ⟨by decide, by decide, by decide⟩

/-- C10 witness: the amended theorem at a realistic raw token. -/
theorem c10_witness :
    isApiKeyRequest "/mcp" (some "wtyk_abc123") = true ∧
    extractApiKey (some "wtyk_abc123") = some "wtyk_abc123" :=
  c10_bearer_strip "wtyk_abc123" (by decide) (by decide)

/-! Claims C4, C5, C6, C7: the Protocol Dispatcher and the Request Router. -/

theorem handleToolsCall_error_code (req : JsonRpcRequest) (u n : String) :
    (handleToolsCall req u n).error = none ∨
    ∃ msg, (handleToolsCall req u n).error = some ⟨-32602, msg⟩ := by
  by_cases h : toolsCallName req = some "example-tool"
  · left
    simp [handleToolsCall, h, jsonRpcResponse]
  · right
    refine ⟨"Unknown tool: " ++ (match toolsCallName req with
        | some s => s
        | none => "undefined"), ?_⟩
    simp [handleToolsCall, h, jsonRpcResponse]

theorem handleResourcesRead_ok (req : JsonRpcRequest) (html : String) :
    ∃ resp, handleResourcesRead req (.ok html) = .ok resp ∧
      (resp.error = none ∨ ∃ msg, resp.error = some ⟨-32602, msg⟩) := by
  cases h : resourcesReadUri req with
  | none =>
      refine ⟨jsonRpcResponse req.id .null
          (some ⟨-32602, "Unknown resource: undefined"⟩), ?_,
        .inr ⟨"Unknown resource: undefined", rfl⟩⟩
      simp [handleResourcesRead, h]
  | some uri =>
      by_cases hu : uri = widgetUri
      · subst hu
        refine ⟨jsonRpcResponse req.id
            (.obj [("contents", .arr [.obj
              [("uri", .str widgetUri),
               ("mimeType", .str UI_MIME_TYPE),
               ("text", .str html),
               ("_meta", widgetMetaJson)]])]) none, ?_, .inl rfl⟩
        simp [handleResourcesRead, h]
      · refine ⟨jsonRpcResponse req.id .null
            (some ⟨-32602, "Unknown resource: " ++ uri⟩), ?_,
          .inr ⟨"Unknown resource: " ++ uri, rfl⟩⟩
        simp [handleResourcesRead, h, hu]

/-- C4: a body with protocol marker "1.0" and method "ping" yields error code
-32600; a body with marker "2.0" and an unsupported method yields -32601 with
a message naming that method; and the body with marker "2.0", id 3 and method
"ping" yields exactly the response with id 3 and the empty-object result. -/
theorem c4_dispatcher (userId nowIso : String) (asset : Except String String)
    (id1 id2 : RpcId) (m : String) (p1 p2 : Option Json)
    (hm : m ∉ (["initialize", "ping", "tools/list", "tools/call",
        "resources/list", "resources/read", "prompts/list"] : List String)) :
    (handleHTTPTransport (.parsed ⟨"1.0", id1, "ping", p1⟩) userId nowIso asset
      = ⟨"2.0", id1, none, some ⟨-32600, "Invalid Request"⟩⟩) ∧
    (handleHTTPTransport (.parsed ⟨"2.0", id2, m, p2⟩) userId nowIso asset
      = ⟨"2.0", id2, none, some ⟨-32601, "Method not found: " ++ m⟩⟩) ∧
    (handleHTTPTransport (.parsed ⟨"2.0", .num 3, "ping", none⟩) userId nowIso
        asset
      = ⟨"2.0", .num 3, some (.obj []), none⟩) := by
  refine ⟨rfl, ?_, rfl⟩
  simp only [List.mem_cons, List.not_mem_nil, or_false] at hm
  push_neg at hm
  obtain ⟨h1, h2, h3, h4, h5, h6, h7⟩ := hm
  simp [handleHTTPTransport, h1, h2, h3, h4, h5, h6, h7, jsonRpcResponse]

/-- C4 witness: the three dispatcher cases at concrete bodies. -/
theorem c4_witness :
    (handleHTTPTransport (.parsed ⟨"1.0", .num 1, "ping", none⟩) "u" "t"
        (.ok "h")
      = ⟨"2.0", .num 1, none, some ⟨-32600, "Invalid Request"⟩⟩) ∧
    (handleHTTPTransport (.parsed ⟨"2.0", .num 2, "no-such-method", none⟩)
        "u" "t" (.ok "h")
      = ⟨"2.0", .num 2, none,
         some ⟨-32601, "Method not found: " ++ "no-such-method"⟩⟩) ∧
    (handleHTTPTransport (.parsed ⟨"2.0", .num 3, "ping", none⟩) "u" "t"
        (.ok "h")
      = ⟨"2.0", .num 3, some (.obj []), none⟩) :=
  c4_dispatcher "u" "t" (.ok "h") (.num 1) (.num 2) "no-such-method" none none
    (by decide)

/-- C5 (amended): the dispatcher returns -32700 with the sentinel id "error"
whenever the body cannot be parsed as the envelope shape, AND also whenever an
exception escapes a handler inside the dispatch (the asset load reached
through `resources/read`), because the dispatch`s try/catch wraps the whole
switch; when the body parses and the asset load succeeds, no path produces
-32700. -/
theorem c5_parse_error_only_for_throws :
    (∀ (msg userId nowIso : String) (asset : Except String String),
        handleHTTPTransport (.failed msg) userId nowIso asset
          = ⟨"2.0", .str "error", none,
             some ⟨-32700, "Parse error: " ++ msg⟩⟩) ∧
    (∀ (req : JsonRpcRequest) (userId nowIso html : String),
        (handleHTTPTransport (.parsed req) userId nowIso
            (.ok html)).error.map RpcError.code ≠ some (-32700)) ∧
    (∀ (req : JsonRpcRequest) (userId nowIso e : String),
        req.jsonrpc = "2.0" → req.method = "resources/read" →
        resourcesReadUri req = some widgetUri →
        handleHTTPTransport (.parsed req) userId nowIso (.error e)
          = ⟨"2.0", .str "error", none,
             some ⟨-32700, "Parse error: " ++ e⟩⟩) := by
  refine ⟨fun msg u n a => rfl, ?_, ?_⟩
  · intro req u n html
    simp only [handleHTTPTransport]
    split_ifs with h1 h2 h3 h4 h5 h6 h7 h8
    · simp [jsonRpcResponse]
    · simp [handleInitRequest, jsonRpcResponse]
    · simp [handlePing, jsonRpcResponse]
    · simp [handleToolsList, jsonRpcResponse]
    · rcases handleToolsCall_error_code req u n with he | ⟨msg, he⟩ <;>
        simp [he]
    · simp [handleResourcesList, jsonRpcResponse]
    · obtain ⟨resp, hre, hcode⟩ := handleResourcesRead_ok req html
      rw [hre]
      rcases hcode with hc | ⟨msg, hc⟩ <;> simp [hc]
    · simp [handlePromptsList, jsonRpcResponse]
    · simp [jsonRpcResponse]
  · intro req u n e h1 h2 h3
    simp [handleHTTPTransport, h1, h2, handleResourcesRead, h3,
      jsonRpcResponse]

/-- C5 counterexample: a well-formed envelope for the supported method
`resources/read` whose asset load throws produces a -32700 "Parse error"
response, so -32700 is NOT produced only when the body cannot be parsed. -/
theorem c5_counterexample :
    (handleHTTPTransport (.parsed ⟨"2.0", .num 7, "resources/read",
        some (.obj [("uri", .str widgetUri)])⟩) "u" "t"
        (.error "asset fetch failed")).error
      = some ⟨-32700, "Parse error: asset fetch failed"⟩ := rfl

/-- C5 witness: the amended theorem at a concrete throwing asset load. -/
theorem c5_witness :
    handleHTTPTransport (.parsed ⟨"2.0", .num 9, "resources/read",
        some (.obj [("uri", .str widgetUri)])⟩) "u2" "t2" (.error "boom")
      = ⟨"2.0", .str "error", none, some ⟨-32700, "Parse error: boom"⟩⟩ :=
  c5_parse_error_only_for_throws.2.2 ⟨"2.0", .num 9, "resources/read",
      some (.obj [("uri", .str widgetUri)])⟩ "u2" "t2" "boom" rfl rfl rfl

/-- C6: `tools/call` with an unrecognized (or missing) tool name yields error
code -32602 naming that tool (a missing name prints as "undefined"); with the
recognized tool name the dispatcher always produces a result, never a
JSON-RPC-level error; and the `view_company` handler converts every thrown
lookup failure (NotFound/InvalidInput/Unavailable messages included) into a
result whose content carries the error flag and a human-readable message. -/
theorem c6_tool_errors_as_results :
    (∀ (req : JsonRpcRequest) (userId nowIso s : String),
        toolsCallName req = some s → s ≠ "example-tool" →
        handleToolsCall req userId nowIso
          = ⟨"2.0", req.id, none, some ⟨-32602, "Unknown tool: " ++ s⟩⟩) ∧
    (∀ (req : JsonRpcRequest) (userId nowIso : String),
        toolsCallName req = none →
        handleToolsCall req userId nowIso
          = ⟨"2.0", req.id, none,
             some ⟨-32602, "Unknown tool: undefined"⟩⟩) ∧
    (∀ (req : JsonRpcRequest) (userId nowIso : String),
        toolsCallName req = some "example-tool" →
        (handleToolsCall req userId nowIso).error = none) ∧
    (∀ (uid krs e : String), uid ≠ "" →
        viewCompanyHandler (some uid) krs (.error e)
          = .ok ⟨[⟨"text", "Error looking up KRS " ++ krs ++ ": " ++ e⟩],
                 none, true⟩) := by
  refine ⟨?_, ?_, ?_, ?_⟩
  · intro req u n s h hs
    simp [handleToolsCall, h, hs, jsonRpcResponse]
  · intro req u n h
    simp [handleToolsCall, h, jsonRpcResponse]
    rfl
  · intro req u n h
    simp [handleToolsCall, h, jsonRpcResponse]
  · intro uid krs e h
    simp [viewCompanyHandler, h]

/-- C6 witness: the unknown-tool error, the recognized-tool result, and the
error-flagged handler result at the upstream NotFound message. -/
theorem c6_witness :
    (handleToolsCall ⟨"2.0", .num 4, "tools/call",
        some (.obj [("name", .str "no-such-tool")])⟩ "u" "t"
      = ⟨"2.0", .num 4, none,
         some ⟨-32602, "Unknown tool: " ++ "no-such-tool"⟩⟩) ∧
    ((handleToolsCall ⟨"2.0", .num 5, "tools/call",
        some (.obj [("name", .str "example-tool")])⟩ "u" "t").error = none) ∧
    (viewCompanyHandler (some "u1") "0000000001"
        (.error "Company with KRS 0000000001 not found in registry")
      = .ok ⟨[⟨"text", "Error looking up KRS 0000000001: " ++
              "Company with KRS 0000000001 not found in registry"⟩],
             none, true⟩) := by
  refine ⟨?_, ?_, ?_⟩
  · exact c6_tool_errors_as_results.1 _ "u" "t" "no-such-tool" rfl (by decide)
  · exact c6_tool_errors_as_results.2.2.1 _ "u" "t" rfl
  · exact c6_tool_errors_as_results.2.2.2 "u1" "0000000001"
      "Company with KRS 0000000001 not found in registry" (by decide)

/-- C7: a request on the key-based lane whose credential is absent (or empty)
or fails validation gets an unauthorized 401 response and the Identity Cache
state is returned unchanged: no session is read, created or cached and no
dispatch runs. -/
theorem c7_unauthorized_short_circuit (authHeader : Option String)
    (validate : String → Option (String × String))
    (cache : LRUCache String Unit) (now : Nat) (pathname nowIso : String)
    (asset : Except String String) (body : BodyParse)
    (h : extractApiKey authHeader = none ∨ extractApiKey authHeader = some ""
      ∨ ∃ key, extractApiKey authHeader = some key ∧ key ≠ "" ∧
          validate key = none) :
    (∃ msg, (handleApiKeyRequest authHeader validate cache now pathname nowIso
        asset body).1 = .httpError msg 401) ∧
    (handleApiKeyRequest authHeader validate cache now pathname nowIso asset
        body).2 = cache := by
  rcases h with h | h | ⟨key, hk, hne, hv⟩
  · exact ⟨⟨"Missing Authorization header", by simp [handleApiKeyRequest, h]⟩,
      by simp [handleApiKeyRequest, h]⟩
  · exact ⟨⟨"Missing Authorization header", by simp [handleApiKeyRequest, h]⟩,
      by simp [handleApiKeyRequest, h]⟩
  · exact ⟨⟨"Invalid or expired API key",
      by simp [handleApiKeyRequest, hk, hne, hv]⟩,
      by simp [handleApiKeyRequest, hk, hne, hv]⟩

/-- C7 witness: a concrete invalid token is rejected with 401 and the concrete
Identity Cache is returned unchanged. -/
theorem c7_witness :
    (∃ msg, (handleApiKeyRequest (some "Bearer wtyk_bad") (fun _ => none)
        (emptyCache String Unit 100) 5 "/mcp" "T" (.ok "h")
        (.parsed ⟨"2.0", .num 1, "ping", none⟩)).1 = .httpError msg 401) ∧
    (handleApiKeyRequest (some "Bearer wtyk_bad") (fun _ => none)
        (emptyCache String Unit 100) 5 "/mcp" "T" (.ok "h")
        (.parsed ⟨"2.0", .num 1, "ping", none⟩)).2
      = emptyCache String Unit 100 :=
  c7_unauthorized_short_circuit (some "Bearer wtyk_bad") (fun _ => none)
    (emptyCache String Unit 100) 5 "/mcp" "T" (.ok "h")
    (.parsed ⟨"2.0", .num 1, "ping", none⟩)
    (.inr (.inr ⟨"wtyk_bad", rfl, by decide, rfl⟩))

end KrsViewer

